import Mathlib

/-
  Verification development for the torua BDD test harness
  (features/environment.py, features/steps/cluster_management_steps.py,
  features/steps/distributed_storage_steps.py, features/steps/common_steps.py).

  Each Python function relevant to the frozen claims is shallowly embedded
  as an executable Lean definition, and the claims are settled as theorems
  about those definitions.  Real time is idealized as exact rational
  timestamps, HTTP calls as explicit outcome values, and the OS process
  table as an explicit list of process states.
-/

set_option maxRecDepth 4000

/-! ## Shard distribution variance
    Source: cluster_management_steps.py, calculate_shard_distribution_variance
    (lines 54 to 70).  A shard is represented by its NodeID field, which the
    Python code reads with shard.get, so the field is optional; the Python
    truthiness test treats the missing field and the empty string as absent. -/

structure Shard where
  nodeID : Option String
deriving Repr, DecidableEq

def truthy : Option String → Bool
  | none => false
  | some s => !(s == "")

def bumpCount : List (String × Nat) → String → List (String × Nat)
  | [], k => [(k, 1)]
  | (k', v) :: rest, k =>
      if k' = k then (k', v + 1) :: rest else (k', v) :: bumpCount rest k

def node_shard_counts (shards : List Shard) : List (String × Nat) :=
  shards.foldl
    (fun acc sh =>
      match sh.nodeID with
      | none => acc
      | some nid => if nid = "" then acc else bumpCount acc nid)
    []

def countValues (shards : List Shard) : List ℚ :=
  (node_shard_counts shards).map (fun kv => (kv.2 : ℚ))

def calculate_shard_distribution_variance (shards : List Shard) : ℚ :=
  let counts := countValues shards
  if counts.isEmpty then 0
  else
    let mean := counts.sum / (counts.length : ℚ)
    (counts.map (fun x => (x - mean) ^ 2)).sum / (counts.length : ℚ)

/-- Population mean of a list of rationals, as in the spec formula; the mean
    of the empty list degenerates to 0 because division by zero is 0. -/
def listMean (l : List ℚ) : ℚ := l.sum / (l.length : ℚ)

/-- Population variance exactly as the spec words it: the mean of the squared
    deviations of each count from the mean of the counts. -/
def popVariance (l : List ℚ) : ℚ :=
  listMean (l.map (fun x => (x - listMean l) ^ 2))

theorem variance_eq_popVariance (shards : List Shard) :
    calculate_shard_distribution_variance shards
      = popVariance (countValues shards) := by
  unfold calculate_shard_distribution_variance popVariance listMean
  rcases h : countValues shards with _ | ⟨c, cs⟩ <;>
    simp [List.length_map]

/-- C1: calculate_shard_distribution_variance computes, for every shard list,
    the per node shard counts and returns the population variance of those
    counts, variance = mean of squared deviations from the mean; for 4 shards
    over 2 nodes with counts (3,1) it returns exactly 1, for counts (2,2) it
    returns 0, and when zero nodes have shards it returns 0. -/
theorem C1_shard_variance :
    (∀ shards : List Shard,
        calculate_shard_distribution_variance shards
          = popVariance (countValues shards)) ∧
    calculate_shard_distribution_variance
        [⟨some "n1"⟩, ⟨some "n1"⟩, ⟨some "n1"⟩, ⟨some "n2"⟩] = 1 ∧
    calculate_shard_distribution_variance
        [⟨some "n1"⟩, ⟨some "n1"⟩, ⟨some "n2"⟩, ⟨some "n2"⟩] = 0 ∧
    calculate_shard_distribution_variance [] = 0 := by
  refine ⟨variance_eq_popVariance, ?_, ?_, ?_⟩
  · have h1 : node_shard_counts
        [⟨some "n1"⟩, ⟨some "n1"⟩, ⟨some "n1"⟩, ⟨some "n2"⟩]
          = [("n1", 3), ("n2", 1)] := by decide
    norm_num [calculate_shard_distribution_variance, countValues, h1]
  · have h2 : node_shard_counts
        [⟨some "n1"⟩, ⟨some "n1"⟩, ⟨some "n2"⟩, ⟨some "n2"⟩]
          = [("n1", 2), ("n2", 2)] := by decide
    norm_num [calculate_shard_distribution_variance, countValues, h2]
  · rfl

theorem node_shard_counts_filter (shards : List Shard) :
    node_shard_counts shards
      = node_shard_counts (shards.filter (fun sh => truthy sh.nodeID)) := by
  unfold node_shard_counts
  suffices h : ∀ (l : List Shard) (acc : List (String × Nat)),
      l.foldl
          (fun acc sh =>
            match sh.nodeID with
            | none => acc
            | some nid => if nid = "" then acc else bumpCount acc nid)
          acc
        = (l.filter (fun sh => truthy sh.nodeID)).foldl
            (fun acc sh =>
              match sh.nodeID with
              | none => acc
              | some nid => if nid = "" then acc else bumpCount acc nid)
            acc by
    exact h shards []
  intro l
  induction l with
  | nil => intro acc; rfl
  | cons sh rest ih =>
      intro acc
      rcases hsh : sh.nodeID with _ | nid
      · simp [List.filter_cons, truthy, hsh, ih]
      · by_cases hnid : nid = ""
        · simp [List.filter_cons, truthy, hsh, hnid, ih]
        · simp [List.filter_cons, truthy, hsh, hnid, ih]

/-- C10: shards whose NodeID field is missing or empty are excluded from the
    per node counts (the counts over any shard list equal the counts over the
    list with such shards filtered out), and a shard list containing only such
    shards yields variance 0. -/
theorem C10_falsy_shards_excluded :
    (∀ shards : List Shard,
        node_shard_counts shards
          = node_shard_counts (shards.filter (fun sh => truthy sh.nodeID))) ∧
    (∀ shards : List Shard, (∀ sh ∈ shards, truthy sh.nodeID = false) →
        calculate_shard_distribution_variance shards = 0) := by
  refine ⟨node_shard_counts_filter, ?_⟩
  intro shards hall
  have hfilter : shards.filter (fun sh => truthy sh.nodeID) = [] := by
    rw [List.filter_eq_nil_iff]
    intro sh hsh
    simpa using hall sh hsh
  have hcounts : node_shard_counts shards = [] := by
    rw [node_shard_counts_filter, hfilter]
    rfl
  unfold calculate_shard_distribution_variance countValues
  rw [hcounts]
  rfl

theorem C10_falsy_shards_excluded_witness :
    node_shard_counts [Shard.mk none, Shard.mk (some "")]
        = node_shard_counts
            ([Shard.mk none, Shard.mk (some "")].filter
              (fun sh => truthy sh.nodeID)) ∧
    calculate_shard_distribution_variance
        [Shard.mk none, Shard.mk (some "")] = 0 :=
  ⟨C10_falsy_shards_excluded.1 [Shard.mk none, Shard.mk (some "")],
   C10_falsy_shards_excluded.2 [Shard.mk none, Shard.mk (some "")]
     (by decide)⟩

/-! ## Node registration check
    Source: distributed_storage_steps.py, step_node_running (lines 85 to 89),
    and environment.py, the private registration waiter (lines 447 to 481).
    A reported node entry exposes optional id and addr fields (read with get
    in Python, addr defaulting to the empty string). -/

structure NodeEntry where
  id : Option String
  addr : Option String
deriving Repr, DecidableEq

/-- Python str.endswith, modelled on the character lists of the strings. -/
def endswith (s suffix : String) : Bool :=
  suffix.data.isSuffixOf s.data

def isRegistered (node_name : String) (port : Nat)
    (nodes : List NodeEntry) : Bool :=
  nodes.any (fun n =>
    endswith (n.addr.getD "") (toString port) || n.id == some node_name)

def registrationCheck (node_name : String) (portKnown : Option Nat)
    (nodes : List NodeEntry) : Bool :=
  nodes.any (fun n => n.id == some node_name) ||
    (match portKnown with
     | some port =>
         nodes.any (fun n => endswith (n.addr.getD "") (toString port))
     | none => false)

/-- C4: a node counts as registered exactly when some reported entry has the
    expected id or some reported address ends with the expected port number;
    the two code sites (the any based check of step_node_running and the two
    pass check of the registration waiter with a known port) agree; and the
    spec regression cases for n1 with expected port 8081 hold. -/
theorem C4_isRegistered_iff :
    (∀ (node_name : String) (port : Nat) (nodes : List NodeEntry),
        isRegistered node_name port nodes = true ↔
          ∃ n ∈ nodes, n.id = some node_name ∨
            endswith (n.addr.getD "") (toString port) = true) ∧
    (∀ (node_name : String) (port : Nat) (nodes : List NodeEntry),
        registrationCheck node_name (some port) nodes
          = isRegistered node_name port nodes) ∧
    isRegistered "n1" 8081 [⟨some "n1", none⟩] = true ∧
    isRegistered "n1" 8081 [⟨some "x", some "http://host:8081"⟩] = true ∧
    isRegistered "n1" 8081 [⟨some "x", some "http://host:8082"⟩] = false := by
  refine ⟨?_, ?_, ?_, ?_, ?_⟩
  · intro node_name port nodes
    simp [isRegistered, List.any_eq_true]
    constructor
    · rintro ⟨n, hn, h | h⟩
      · exact ⟨n, hn, Or.inr h⟩
      · exact ⟨n, hn, Or.inl h⟩
    · rintro ⟨n, hn, h | h⟩
      · exact ⟨n, hn, Or.inr h⟩
      · exact ⟨n, hn, Or.inl h⟩
  · intro node_name port nodes
    rw [Bool.eq_iff_iff]
    simp only [registrationCheck, isRegistered, List.any_eq_true,
      Bool.or_eq_true, beq_iff_eq]
    constructor
    · rintro (⟨n, hn, h⟩ | ⟨n, hn, h⟩)
      · exact ⟨n, hn, Or.inr h⟩
      · exact ⟨n, hn, Or.inl h⟩
    · rintro ⟨n, hn, h | h⟩
      · exact Or.inr ⟨n, hn, h⟩
      · exact Or.inl ⟨n, hn, h⟩
  · decide
  · decide
  · decide

/-! ## Readiness gate
    Source: cluster_management_steps.py, wait_for_condition (lines 23 to 40),
    and environment.py, the retry decorated service waiter (lines 440 to 445).
    Time is idealized: predicate evaluation is instantaneous and each sleep
    advances the clock by exactly the poll interval.  The predicate is indexed
    by the evaluation number so that stateful predicates are representable.
    The Python function returns a boolean and contains no raise statement, so
    its embedded result type is an Except whose error side is never produced;
    the tenacity decorated waiter, by contrast, raises a retry timeout once
    the deadline has elapsed. -/

inductive GateError where
  | readinessTimeout
  | retryTimeout
deriving Repr, DecidableEq

structure GateRun where
  result : Except GateError Bool
  evals : Nat
  times : List ℚ
deriving Repr

def waitLoop (check : Nat → Bool) (timeout_seconds poll_interval : ℚ) :
    Nat → ℚ → Nat → GateRun
  | 0, _, n => ⟨Except.ok false, n, []⟩
  | fuel + 1, t, n =>
      if t < timeout_seconds then
        if check n then ⟨Except.ok true, n + 1, [t]⟩
        else
          let r := waitLoop check timeout_seconds poll_interval fuel
            (t + poll_interval) (n + 1)
          ⟨r.result, r.evals, t :: r.times⟩
      else ⟨Except.ok false, n, []⟩

def gateFuel (timeout_seconds poll_interval : ℚ) : Nat :=
  (⌈timeout_seconds / poll_interval⌉).toNat + 1

def wait_for_condition (check : Nat → Bool)
    (timeout_seconds poll_interval : ℚ) : GateRun :=
  waitLoop check timeout_seconds poll_interval
    (gateFuel timeout_seconds poll_interval) 0 0

def retryLoop (attempt : Nat → Bool) (deadline wait_seconds : ℚ) :
    Nat → ℚ → Nat → GateRun
  | 0, _, n => ⟨Except.error GateError.retryTimeout, n, []⟩
  | fuel + 1, t, n =>
      if attempt n then ⟨Except.ok true, n + 1, [t]⟩
      else if deadline ≤ t then
        ⟨Except.error GateError.retryTimeout, n + 1, [t]⟩
      else
        let r := retryLoop attempt deadline wait_seconds fuel
          (t + wait_seconds) (n + 1)
        ⟨r.result, r.evals, t :: r.times⟩

def retry_gate (attempt : Nat → Bool) (deadline wait_seconds : ℚ) : GateRun :=
  retryLoop attempt deadline wait_seconds
    (gateFuel deadline wait_seconds) 0 0

theorem range_shift (t p : ℚ) (k : Nat) :
    (List.range (k + 1)).map (fun (j : Nat) => t + (j : ℚ) * p)
      = t :: (List.range k).map (fun (j : Nat) => (t + p) + (j : ℚ) * p) := by
  rw [List.range_succ_eq_map]
  simp only [List.map_cons, List.map_map]
  refine congrArg₂ List.cons ?_ ?_
  · push_cast
    ring
  · refine List.map_congr_left ?_
    intro j _
    simp only [Function.comp_apply]
    push_cast
    ring

theorem ceil_fuel_le (D p : ℚ) (hp : 0 < p) :
    D ≤ ((⌈D / p⌉.toNat : ℚ)) * p := by
  rcases le_or_lt D 0 with hD | hD
  · have hnn : (0 : ℚ) ≤ ((⌈D / p⌉.toNat : ℚ)) * p := by positivity
    linarith
  · have h1 : D / p ≤ ((⌈D / p⌉ : ℤ) : ℚ) := Int.le_ceil _
    have h2 : (0 : ℤ) ≤ ⌈D / p⌉ := by
      have hpos : (0 : ℚ) ≤ D / p := le_of_lt (div_pos hD hp)
      exact Int.ceil_nonneg hpos
    have h3 : ((⌈D / p⌉.toNat : ℤ)) = ⌈D / p⌉ := Int.toNat_of_nonneg h2
    have h3q : ((⌈D / p⌉.toNat : ℚ)) = ((⌈D / p⌉ : ℤ) : ℚ) := by
      exact_mod_cast h3
    have h5 : D / p * p ≤ ((⌈D / p⌉ : ℤ) : ℚ) * p :=
      mul_le_mul_of_nonneg_right h1 (le_of_lt hp)
    rw [div_mul_cancel₀ D (ne_of_gt hp)] at h5
    rw [h3q]
    exact h5

theorem waitLoop_always_false (check : Nat → Bool)
    (hc : ∀ m, check m = false) (D p : ℚ) :
    ∀ (fuel : Nat) (t : ℚ) (n : Nat), D ≤ t + (fuel : ℚ) * p →
      ∃ k : Nat,
        waitLoop check D p fuel t n
            = ⟨Except.ok false, n + k,
                (List.range k).map (fun (j : Nat) => t + (j : ℚ) * p)⟩ ∧
          D ≤ t + (k : ℚ) * p ∧
          ∀ j : Nat, j < k → t + (j : ℚ) * p < D := by
  intro fuel
  induction fuel with
  | zero =>
      intro t n h
      exact ⟨0, rfl, by simpa using h,
        fun j hj => absurd hj (Nat.not_lt_zero j)⟩
  | succ fuel ih =>
      intro t n h
      by_cases ht : t < D
      · have h' : D ≤ (t + p) + (fuel : ℚ) * p := by
          push_cast at h
          linarith
        obtain ⟨k, hk, hDk, hlt⟩ := ih (t + p) (n + 1) h'
        refine ⟨k + 1, ?_, ?_, ?_⟩
        · have hrw : waitLoop check D p (fuel + 1) t n
              = ⟨(waitLoop check D p fuel (t + p) (n + 1)).result,
                 (waitLoop check D p fuel (t + p) (n + 1)).evals,
                 t :: (waitLoop check D p fuel (t + p) (n + 1)).times⟩ := by
            simp [waitLoop, ht, hc]
          rw [hrw, hk]
          simp only [GateRun.mk.injEq]
          exact ⟨trivial, by omega, (range_shift t p k).symm⟩
        · push_cast
          linarith
        · intro j hj
          rcases Nat.eq_zero_or_pos j with hj0 | hjpos
          · subst hj0
            simpa using ht
          · obtain ⟨i, rfl⟩ := Nat.exists_eq_add_of_le hjpos
            have hi := hlt i (by omega)
            push_cast at hi
            push_cast
            linarith
      · refine ⟨0, ?_, ?_, fun j hj => absurd hj (Nat.not_lt_zero j)⟩
        · simp [waitLoop, ht]
        · simpa using not_lt.mp ht

theorem range_one_map (t p : ℚ) :
    (List.range 1).map (fun (j : Nat) => t + (j : ℚ) * p) = [t] := by
  have h : List.range 1 = [0] := rfl
  rw [h]
  simp

theorem retryLoop_always_false (attempt : Nat → Bool)
    (hc : ∀ m, attempt m = false) (D p : ℚ) :
    ∀ (fuel : Nat) (t : ℚ) (n : Nat), D ≤ t + (fuel : ℚ) * p →
      ∃ k : Nat,
        retryLoop attempt D p (fuel + 1) t n
            = ⟨Except.error GateError.retryTimeout, n + k + 1,
                (List.range (k + 1)).map (fun (j : Nat) => t + (j : ℚ) * p)⟩ ∧
          D ≤ t + (k : ℚ) * p := by
  intro fuel
  induction fuel with
  | zero =>
      intro t n h
      have hD : D ≤ t := by simpa using h
      refine ⟨0, ?_, by simpa using hD⟩
      simp [retryLoop, hc, hD]
      exact (range_one_map t p).symm
  | succ fuel ih =>
      intro t n h
      by_cases hD : D ≤ t
      · refine ⟨0, ?_, by simpa using hD⟩
        simp [retryLoop, hc, hD]
        exact (range_one_map t p).symm
      · have ht : t < D := not_le.mp hD
        have h' : D ≤ (t + p) + (fuel : ℚ) * p := by
          push_cast at h
          linarith
        obtain ⟨k, hk, hDk⟩ := ih (t + p) (n + 1) h'
        refine ⟨k + 1, ?_, ?_⟩
        · have hrw : retryLoop attempt D p (fuel + 1 + 1) t n
              = ⟨(retryLoop attempt D p (fuel + 1) (t + p) (n + 1)).result,
                 (retryLoop attempt D p (fuel + 1) (t + p) (n + 1)).evals,
                 t :: (retryLoop attempt D p (fuel + 1) (t + p) (n + 1)).times⟩ := by
            simp [retryLoop, hc, hD]
          rw [hrw, hk]
          simp only [GateRun.mk.injEq]
          exact ⟨trivial, by omega, (range_shift t p (k + 1)).symm⟩
        · push_cast
          linarith

theorem wait_for_condition_always_false (check : Nat → Bool)
    (hc : ∀ m, check m = false) (D p : ℚ) (hp : 0 < p) :
    ∃ k : Nat,
      wait_for_condition check D p
          = ⟨Except.ok false, k,
              (List.range k).map (fun (j : Nat) => (j : ℚ) * p)⟩ ∧
        D ≤ (k : ℚ) * p ∧ ∀ j : Nat, j < k → (j : ℚ) * p < D := by
  have hfuel : D ≤ 0 + (gateFuel D p : ℚ) * p := by
    have h1 := ceil_fuel_le D p hp
    have h2 : ((⌈D / p⌉.toNat : ℚ)) * p ≤ ((gateFuel D p : ℚ)) * p := by
      have h3 : ((⌈D / p⌉.toNat : ℚ)) ≤ (gateFuel D p : ℚ) := by
        unfold gateFuel
        push_cast
        linarith
      exact mul_le_mul_of_nonneg_right h3 (le_of_lt hp)
    linarith
  obtain ⟨k, hk, hDk, hlt⟩ :=
    waitLoop_always_false check hc D p (gateFuel D p) 0 0 hfuel
  refine ⟨k, ?_, by simpa using hDk, fun j hj => by simpa using hlt j hj⟩
  unfold wait_for_condition
  rw [hk]
  simp only [GateRun.mk.injEq]
  refine ⟨trivial, by omega, ?_⟩
  refine List.map_congr_left ?_
  intro j _
  ring

theorem retry_gate_always_false (attempt : Nat → Bool)
    (hc : ∀ m, attempt m = false) (D p : ℚ) (hp : 0 < p) :
    ∃ k : Nat,
      retry_gate attempt D p
          = ⟨Except.error GateError.retryTimeout, k + 1,
              (List.range (k + 1)).map (fun (j : Nat) => (j : ℚ) * p)⟩ ∧
        D ≤ (k : ℚ) * p := by
  have hfuel : D ≤ 0 + ((⌈D / p⌉.toNat : ℚ)) * p := by
    have h1 := ceil_fuel_le D p hp
    linarith
  obtain ⟨k, hk, hDk⟩ :=
    retryLoop_always_false attempt hc D p (⌈D / p⌉.toNat) 0 0 hfuel
  refine ⟨k, ?_, by simpa using hDk⟩
  unfold retry_gate gateFuel
  rw [hk]
  simp only [GateRun.mk.injEq]
  refine ⟨trivial, by omega, ?_⟩
  refine List.map_congr_left ?_
  intro j _
  ring

/-- C5 counterexample: at deadline 2 and poll interval one half with an always
    false predicate, wait_for_condition returns the ordinary value false; no
    exception value is produced, refuting at this input the claim that the
    gate fails by raising ReadinessTimeoutError. -/
theorem C5_counterexample_gate_returns_false :
    (wait_for_condition (fun _ => false) 2 (1 / 2)).result = Except.ok false ∧
    (wait_for_condition (fun _ => false) 2 (1 / 2)).result
      ≠ Except.error GateError.readinessTimeout := by
  obtain ⟨k, hk, -, -⟩ := wait_for_condition_always_false
    (fun _ => false) (fun _ => rfl) 2 (1 / 2) (by norm_num)
  rw [hk]
  exact ⟨rfl, by simp⟩

/-- C5 (amended): for every deadline D and poll interval p greater than 0,
    applied to an always false predicate the readiness gate evaluates the
    predicate at least D divided by p times (the evaluation count k satisfies
    D less or equal k times p), with evaluations at exactly 0, p, 2p, and so
    on, never closer than p apart; after the deadline it fails rather than
    returning success: wait_for_condition returns the value false, while the
    retry decorated gate raises a retry timeout error (there is no
    ReadinessTimeoutError in the code). -/
theorem C5_readiness_gate_amended (D p : ℚ) (hp : 0 < p)
    (check : Nat → Bool) (hc : ∀ m, check m = false) :
    (∃ k : Nat,
        wait_for_condition check D p
            = ⟨Except.ok false, k,
                (List.range k).map (fun (j : Nat) => (j : ℚ) * p)⟩ ∧
          D ≤ (k : ℚ) * p) ∧
    (∃ k : Nat,
        retry_gate check D p
            = ⟨Except.error GateError.retryTimeout, k + 1,
                (List.range (k + 1)).map (fun (j : Nat) => (j : ℚ) * p)⟩ ∧
          D ≤ (k : ℚ) * p) := by
  obtain ⟨k, hk, hDk, -⟩ := wait_for_condition_always_false check hc D p hp
  obtain ⟨k', hk', hDk'⟩ := retry_gate_always_false check hc D p hp
  exact ⟨⟨k, hk, hDk⟩, ⟨k', hk', hDk'⟩⟩

theorem C5_readiness_gate_amended_witness :
    (0 : ℚ) < 1 / 2 ∧
    ((∃ k : Nat,
        wait_for_condition (fun _ => false) 2 (1 / 2)
            = ⟨Except.ok false, k,
                (List.range k).map (fun (j : Nat) => (j : ℚ) * (1 / 2))⟩ ∧
          (2 : ℚ) ≤ (k : ℚ) * (1 / 2)) ∧
     (∃ k : Nat,
        retry_gate (fun _ => false) 2 (1 / 2)
            = ⟨Except.error GateError.retryTimeout, k + 1,
                (List.range (k + 1)).map (fun (j : Nat) => (j : ℚ) * (1 / 2))⟩ ∧
          (2 : ℚ) ≤ (k : ℚ) * (1 / 2))) :=
  ⟨by norm_num,
   C5_readiness_gate_amended 2 (1 / 2) (by norm_num)
     (fun _ => false) (fun _ => rfl)⟩

/-! ## Cluster state fetches
    Source: cluster_management_steps.py, get_cluster_info (lines 43 to 51) and
    step_query_cluster_status (lines 92 to 122).  An HTTP call is modelled by
    its outcome: either the request itself fails (a network error, which the
    requests library raises), or a response arrives with a status code and a
    body that either parses as the expected JSON shape or is malformed, in
    which case the json method raises.  get_cluster_info wraps everything in
    a try block that swallows all exceptions, so its embedding is a total
    function into Option; the nodes, shards and health blocks of
    step_query_cluster_status are not wrapped, so their embeddings return an
    Except whose error side records the uncaught exception. -/

inductive HttpOutcome (α : Type) where
  | netError
  | response (status : Nat) (body : Option α)
deriving Repr, DecidableEq

inductive StepExc where
  | requestExc
  | jsonExc
deriving Repr, DecidableEq

def get_cluster_info {α : Type} (o : HttpOutcome α) : Option α :=
  match o with
  | .netError => none
  | .response status body =>
      if status = 200 then
        match body with
        | some v => some v
        | none => none
      else none

def fetch_nodes_fragment {α : Type} (o : HttpOutcome α) :
    Except StepExc (Option α) :=
  match o with
  | .netError => Except.error StepExc.requestExc
  | .response status body =>
      if status = 200 then
        match body with
        | some v => Except.ok (some v)
        | none => Except.error StepExc.jsonExc
      else Except.ok none

def fetch_health_fragment {α : Type} (o : HttpOutcome α) :
    Except StepExc (Nat × Option α) :=
  match o with
  | .netError => Except.error StepExc.requestExc
  | .response status body => Except.ok (status, body)

/-- C6 counterexample: in step_query_cluster_status the nodes fetch is not
    wrapped in a try block; a 200 response whose body is malformed makes the
    json call raise to the caller, and a network error raises from the get
    call itself, refuting at these inputs the claim that the fetches never
    raise an error to their caller. -/
theorem C6_counterexample_status_query_raises :
    fetch_nodes_fragment
        (HttpOutcome.response 200 (none : Option (List NodeEntry)))
        = Except.error StepExc.jsonExc ∧
    fetch_nodes_fragment (HttpOutcome.netError : HttpOutcome (List NodeEntry))
        = Except.error StepExc.requestExc :=
  ⟨rfl, rfl⟩

/-- C6 (amended): get_cluster_info never raises, and a network error, a non
    success status, or a malformed 200 body each yield the empty result none;
    the nodes, shards and health fetches of step_query_cluster_status yield
    an absent fragment on a non success status without raising, but a network
    error raises the request exception to the caller, and a malformed 200
    body raises the json decode exception from the JSON fragments. -/
theorem C6_fetch_error_handling {α : Type} :
    get_cluster_info (HttpOutcome.netError : HttpOutcome α) = none ∧
    (∀ (s : Nat) (b : Option α), s ≠ 200 →
        get_cluster_info (HttpOutcome.response s b) = none) ∧
    (∀ s : Nat, get_cluster_info (HttpOutcome.response s (none : Option α))
        = none) ∧
    (∀ (s : Nat) (b : Option α), s ≠ 200 →
        fetch_nodes_fragment (HttpOutcome.response s b) = Except.ok none) ∧
    fetch_nodes_fragment (HttpOutcome.netError : HttpOutcome α)
        = Except.error StepExc.requestExc ∧
    fetch_health_fragment (HttpOutcome.netError : HttpOutcome α)
        = Except.error StepExc.requestExc := by
  refine ⟨rfl, ?_, ?_, ?_, rfl, rfl⟩
  · intro s b hs
    simp [get_cluster_info, hs]
  · intro s
    by_cases hs : s = 200 <;> simp [get_cluster_info, hs]
  · intro s b hs
    simp [fetch_nodes_fragment, hs]

theorem C6_fetch_error_handling_witness :
    (503 : Nat) ≠ 200 ∧
    (get_cluster_info (HttpOutcome.netError : HttpOutcome Nat) = none ∧
     (∀ (s : Nat) (b : Option Nat), s ≠ 200 →
         get_cluster_info (HttpOutcome.response s b) = none) ∧
     (∀ s : Nat, get_cluster_info (HttpOutcome.response s (none : Option Nat))
         = none) ∧
     (∀ (s : Nat) (b : Option Nat), s ≠ 200 →
         fetch_nodes_fragment (HttpOutcome.response s b) = Except.ok none) ∧
     fetch_nodes_fragment (HttpOutcome.netError : HttpOutcome Nat)
         = Except.error StepExc.requestExc ∧
     fetch_health_fragment (HttpOutcome.netError : HttpOutcome Nat)
         = Except.error StepExc.requestExc) ∧
    get_cluster_info (HttpOutcome.response 503 (some (7 : Nat))) = none :=
  ⟨by decide, C6_fetch_error_handling,
   (C6_fetch_error_handling.2.1) 503 (some 7) (by decide)⟩

/-! ## Concurrent workload driver
    Source: distributed_storage_steps.py, step_concurrent_puts (lines 400 to
    439) and step_concurrent_gets (lines 450 to 466).  Each worker performs
    one HTTP operation and builds a result dictionary from the response
    status; the worker functions catch nothing, so a raised network error is
    stored in the future and re-raised by the result call during collection.
    Collection is modelled in list order; the claim under study does not
    depend on completion order. -/

structure WorkloadResult where
  client_id : Nat
  status : Nat
deriving Repr, DecidableEq

def statusOf {α : Type} : HttpOutcome α → Nat
  | .netError => 0
  | .response s _ => s

def valueOf : HttpOutcome String → Option String
  | .netError => none
  | .response s b => if s = 200 then b else none

def put_value (client_id : Nat) (o : HttpOutcome Unit) :
    Except StepExc WorkloadResult :=
  match o with
  | .netError => Except.error StepExc.requestExc
  | .response s _ => Except.ok ⟨client_id, s⟩

def get_value (key : String) (o : HttpOutcome String) :
    Except StepExc (String × Option String × Nat) :=
  match o with
  | .netError => Except.error StepExc.requestExc
  | .response s b => Except.ok (key, (if s = 200 then b else none), s)

def collect_results {β : Type} :
    List (Except StepExc β) → Except StepExc (List β)
  | [] => Except.ok []
  | f :: fs =>
      match f with
      | Except.error e => Except.error e
      | Except.ok r =>
          match collect_results fs with
          | Except.error e => Except.error e
          | Except.ok rs => Except.ok (r :: rs)

def step_concurrent_puts (outcomes : List (HttpOutcome Unit)) :
    Except StepExc (List WorkloadResult) :=
  collect_results (outcomes.enum.map (fun ci => put_value ci.1 ci.2))

def step_concurrent_gets (gets : List (String × HttpOutcome String)) :
    Except StepExc (List (String × Option String × Nat)) :=
  collect_results (gets.map (fun kg => get_value kg.1 kg.2))

theorem collect_results_map_ok {α β : Type} (l : List α)
    (f : α → Except StepExc β) (g : α → β)
    (h : ∀ x ∈ l, f x = Except.ok (g x)) :
    collect_results (l.map f) = Except.ok (l.map g) := by
  induction l with
  | nil => rfl
  | cons x xs ih =>
      have hx : f x = Except.ok (g x) := h x (List.mem_cons_self x xs)
      have hxs : collect_results (xs.map f) = Except.ok (xs.map g) :=
        ih (fun y hy => h y (List.mem_cons_of_mem x hy))
      simp [collect_results, hx, hxs]

/-- C7 counterexample: in a batch of two concurrent puts where the second
    operation hits a network failure, the uncaught exception stored in its
    future is re-raised by the result call, so result collection aborts with
    the request exception and no result list is produced for the batch,
    refuting the claim that every submitted operation produces a
    WorkloadResult. -/
theorem C7_counterexample_network_failure_aborts :
    step_concurrent_puts [HttpOutcome.response 204 (some ()), HttpOutcome.netError]
        = Except.error StepExc.requestExc :=
  rfl

/-- C7 (amended): an operation that receives any HTTP response, success or
    not, is captured as a normal WorkloadResult whose status field is the
    received status, and such operations never abort their siblings: whenever
    no operation in the batch raises a network error, both the concurrent put
    and the concurrent get collections return one result per submitted
    operation, in submission indexing, with the status fields reflecting each
    response; a raised network error, however, aborts result collection (see
    the counterexample). -/
theorem C7_workload_results_amended
    (puts : List (HttpOutcome Unit))
    (gets : List (String × HttpOutcome String))
    (hp : ∀ o ∈ puts, o ≠ HttpOutcome.netError)
    (hg : ∀ kg ∈ gets, kg.2 ≠ HttpOutcome.netError) :
    step_concurrent_puts puts
        = Except.ok (puts.enum.map (fun ci => ⟨ci.1, statusOf ci.2⟩)) ∧
    step_concurrent_gets gets
        = Except.ok (gets.map (fun kg => (kg.1, valueOf kg.2, statusOf kg.2))) := by
  constructor
  · refine collect_results_map_ok puts.enum _ _ ?_
    intro x hx
    have hx2 : x.2 ≠ HttpOutcome.netError := by
      revert x hx
      rw [List.forall_mem_enum]
      intro i hi
      exact hp _ (List.getElem_mem hi)
    rcases ho : x.2 with _ | ⟨s, b⟩
    · exact absurd ho hx2
    · simp [put_value, ho, statusOf]
  · refine collect_results_map_ok gets _ _ ?_
    intro kg hkg
    have hkg2 : kg.2 ≠ HttpOutcome.netError := hg kg hkg
    rcases ho : kg.2 with _ | ⟨s, b⟩
    · exact absurd ho hkg2
    · simp [get_value, ho, statusOf, valueOf]

theorem C7_workload_results_amended_witness :
    ((∀ o ∈ [HttpOutcome.response 204 (some ()), HttpOutcome.response 503 (some ())],
        o ≠ HttpOutcome.netError) ∧
     (∀ kg ∈ [("k0", HttpOutcome.response 200 (some "v0"))],
        kg.2 ≠ HttpOutcome.netError)) ∧
    (step_concurrent_puts
        [HttpOutcome.response 204 (some ()), HttpOutcome.response 503 (some ())]
        = Except.ok
            ([(0, HttpOutcome.response 204 (some ())),
              (1, HttpOutcome.response 503 (some ()))].map
              (fun ci => ⟨ci.1, statusOf ci.2⟩)) ∧
     step_concurrent_gets [("k0", HttpOutcome.response 200 (some "v0"))]
        = Except.ok
            ([("k0", HttpOutcome.response 200 (some "v0"))].map
              (fun kg => (kg.1, valueOf kg.2, statusOf kg.2)))) := by
  refine ⟨⟨by decide, by decide⟩, ?_⟩
  exact C7_workload_results_amended
    [HttpOutcome.response 204 (some ()), HttpOutcome.response 503 (some ())]
    [("k0", HttpOutcome.response 200 (some "v0"))]
    (by decide) (by decide)

/-! ## Process model: fault injection and teardown
    Sources: cluster_management_steps.py, step_node_stops_responding (lines
    192 to 248) and step_node_recovers (lines 659 to 668); environment.py,
    stop_all_processes (lines 345 to 400) and the per record stopper (lines
    402 to 416).  The OS is a list of process entries carrying the fields the
    Python code inspects through psutil: pid, process group, command line,
    whether the environment can be read and the NODE_ID it holds, whether the
    psutil info access works at all, and the scheduling status.  Signal
    semantics: a kill signal always kills; a terminate signal kills a running
    process but stays pending on a stopped one (so the process remains
    stopped); stop and continue move between running and stopped; every
    signal is a no-op on a dead process, where the Python kill call raises
    and the callers catch.  The harness state keeps the two distinct python
    level containers: the suspended pid list living on the behave context,
    which the fault injection steps write, and the suspended pid list living
    on the TestContext dataclass, which the teardown sweep reads. -/

inductive PStatus where
  | running
  | stopped
  | dead
deriving Repr, DecidableEq

inductive Sig where
  | sigterm
  | sigkill
  | sigstop
  | sigcont
deriving Repr, DecidableEq

structure Proc where
  pid : Nat
  pgid : Nat
  cmdline : List String
  envAccessible : Bool
  envNodeId : Option String
  infoAccessible : Bool
  status : PStatus
deriving Repr, DecidableEq

def applySig (s : Sig) (st : PStatus) : PStatus :=
  match st, s with
  | .dead, _ => .dead
  | _, .sigkill => .dead
  | .running, .sigterm => .dead
  | .stopped, .sigterm => .stopped
  | _, .sigstop => .stopped
  | _, .sigcont => .running

def os_kill (pid : Nat) (s : Sig) (os : List Proc) : List Proc :=
  os.map (fun p =>
    if p.pid = pid then { p with status := applySig s p.status } else p)

def killpg (g : Nat) (s : Sig) (os : List Proc) : List Proc :=
  os.map (fun p =>
    if p.pgid = g then { p with status := applySig s p.status } else p)

def alive : List Proc → Nat → Bool
  | [], _ => false
  | p :: rest, pid =>
      (p.pid == pid && !(p.status == PStatus.dead)) || alive rest pid

/-- pat is an initial segment of hay. -/
def leadsWith : List Char → List Char → Bool
  | [], _ => true
  | _ :: _, [] => false
  | c :: cs, d :: ds => c == d && leadsWith cs ds

/-- Python substring membership, pat in hay, over character lists. -/
def hasSubstring : List Char → List Char → Bool
  | pat, [] => leadsWith pat []
  | pat, d :: rest => leadsWith pat (d :: rest) || hasSubstring pat rest

def containsSub (s pat : String) : Bool :=
  hasSubstring pat.data s.data

def procMatches (node_id : String) (node_port : Nat) (p : Proc) : Bool :=
  match p.cmdline with
  | [] => false
  | c0 :: _ =>
      containsSub c0 "./bin/node" &&
        (if p.envAccessible then p.envNodeId == some node_id
         else
           containsSub (String.intercalate " " p.cmdline)
               ("NODE_LISTEN=:" ++ toString node_port) ||
             containsSub (String.intercalate " " p.cmdline)
               (":" ++ toString node_port))

/-- The whole per entry condition of the scan loop: the info access works,
    the process still exists, and the match test succeeds. -/
def selectedBool (node_id : String) (port : Nat) (p : Proc) : Bool :=
  p.infoAccessible && !(p.status == PStatus.dead)
    && procMatches node_id port p

/-- The first pass of step_node_stops_responding: iterate the process table
    and collect the pids of matching node processes, skipping entries whose
    info access raises and processes that no longer exist. -/
def target_pids (node_id : String) (node_port : Nat) : List Proc → List Nat
  | [] => []
  | p :: rest =>
      if selectedBool node_id node_port p then
        p.pid :: target_pids node_id node_port rest
      else
        target_pids node_id node_port rest

structure HarnessState where
  os : List Proc
  behave_suspended_pids : List Nat
  test_suspended_pids : List Nat
  suspended_node : Option String
  suspended_pid : Option Nat
deriving Repr, DecidableEq

/-- One iteration of the suspend loop: send the stop signal and record the
    pid; when the kill call raises because the process is gone, everything in
    the try block is skipped. -/
def suspend_one (node_id : String) (s : HarnessState) (pid : Nat) :
    HarnessState :=
  if alive s.os pid then
    { s with
        os := os_kill pid Sig.sigstop s.os,
        suspended_node := some node_id,
        suspended_pid := some pid,
        behave_suspended_pids := s.behave_suspended_pids ++ [pid] }
  else s

def step_node_stops_responding (node_id : String) (node_port : Option Nat)
    (s : HarnessState) : HarnessState :=
  match node_port with
  | none => s
  | some port =>
      if port = 0 then s
      else
        (target_pids node_id port s.os).foldl (suspend_one node_id) s

def step_node_recovers (node_id : String) (s : HarnessState) : HarnessState :=
  match s.suspended_pid, s.suspended_node with
  | some pid, some n =>
      if n = node_id then
        if alive s.os pid then { s with os := os_kill pid Sig.sigcont s.os }
        else s
      else s
  | _, _ => s

/-- The sweep at the top of stop_all_processes: kill every pid recorded in
    the TestContext suspended list, ignoring already dead processes, then
    clear that list. -/
def sweep_suspended (s : HarnessState) : HarnessState :=
  { s with
      os := s.test_suspended_pids.foldl
        (fun o pid => os_kill pid Sig.sigkill o) s.os,
      test_suspended_pids := [] }

def pgid_of (os : List Proc) (pid : Nat) : Nat :=
  match os.find? (fun p => p.pid == pid) with
  | some p => p.pgid
  | none => 0

/-- The per record stopper: terminate, wait up to the timeout, and kill on
    timeout expiry; a process that is already gone is skipped. -/
def stop_process_record (os : List Proc) (pid : Nat) : List Proc :=
  if alive os pid then
    let os1 := os_kill pid Sig.sigterm os
    if alive os1 pid then os_kill pid Sig.sigkill os1 else os1
  else os

/-- Stopping goreman: a terminate signal to its whole process group, then on
    wait timeout a kill aimed at the goreman process only. -/
def stop_goreman (os : List Proc) (g : Nat) : List Proc :=
  let os1 := killpg (pgid_of os g) Sig.sigterm os
  if alive os1 g then os_kill g Sig.sigkill os1 else os1

/-- The final cleanup loop over the recorded Popen handles: group terminate,
    then on failure a kill aimed at the handle process only. -/
def stop_remaining (os : List Proc) (pid : Nat) : List Proc :=
  if alive os pid then
    let os1 := killpg (pgid_of os pid) Sig.sigterm os
    if alive os1 pid then os_kill pid Sig.sigkill os1 else os1
  else os

structure Handles where
  goreman : Option Nat
  node_handles : List Nat
  coordinator_handle : Option Nat
  processes : List Nat
deriving Repr, DecidableEq

def stop_all_processes (h : Handles) (s : HarnessState) : HarnessState :=
  let s1 := sweep_suspended s
  let os2 := match h.goreman with
    | some g => stop_goreman s1.os g
    | none => s1.os
  let os3 := h.node_handles.foldl stop_process_record os2
  let os4 := match h.coordinator_handle with
    | some c => stop_process_record os3 c
    | none => os3
  let os5 := h.processes.foldl stop_remaining os4
  { s1 with os := os5 }

/-- The selection criterion as the spec words it: a live, inspectable process
    whose executable invocation is the node binary, identified primarily by
    the NODE_ID environment variable and, only when environment inspection is
    denied, by the configured listen port appearing in the command line. -/
def SelectedBySpec (node_id : String) (port : Nat) (p : Proc) : Prop :=
  p.infoAccessible = true ∧
  p.status ≠ PStatus.dead ∧
  (∃ c0 rest, p.cmdline = c0 :: rest ∧ containsSub c0 "./bin/node" = true) ∧
  ((p.envAccessible = true ∧ p.envNodeId = some node_id) ∨
   (p.envAccessible = false ∧
     (containsSub (String.intercalate " " p.cmdline)
         ("NODE_LISTEN=:" ++ toString port) = true ∨
      containsSub (String.intercalate " " p.cmdline)
         (":" ++ toString port) = true)))

theorem selectedBool_iff_spec (node_id : String) (port : Nat) (p : Proc) :
    selectedBool node_id port p = true ↔ SelectedBySpec node_id port p := by
  rcases hc : p.cmdline with _ | ⟨c0, rest⟩
  · simp [selectedBool, procMatches, SelectedBySpec, hc]
  · by_cases he : p.envAccessible = true
    · simp [selectedBool, procMatches, SelectedBySpec, hc, he, and_assoc]
    · have hef : p.envAccessible = false := by simpa using he
      simp [selectedBool, procMatches, SelectedBySpec, hc, hef, and_assoc]

theorem target_pids_eq_filter (node_id : String) (port : Nat)
    (os : List Proc) :
    target_pids node_id port os
      = (os.filter (selectedBool node_id port)).map Proc.pid := by
  induction os with
  | nil => rfl
  | cons p rest ih =>
      by_cases hp : selectedBool node_id port p = true
      · simp [target_pids, List.filter_cons, hp, ih]
      · simp [target_pids, List.filter_cons, hp, ih,
          Bool.eq_false_iff.mpr hp]

theorem applySig_sigstop_dead (st : PStatus) :
    (applySig Sig.sigstop st == PStatus.dead) = (st == PStatus.dead) := by
  cases st <;> rfl

theorem alive_os_kill_sigstop (pid q : Nat) (os : List Proc) :
    alive (os_kill pid Sig.sigstop os) q = alive os q := by
  induction os with
  | nil => rfl
  | cons p rest ih =>
      by_cases hp : p.pid = pid
      · simp [os_kill, alive, hp, applySig_sigstop_dead]
        simp [os_kill] at ih
        rw [ih]
      · simp [os_kill, alive, hp]
        simp [os_kill] at ih
        rw [ih]

theorem target_pids_alive (node_id : String) (port : Nat) :
    ∀ (os : List Proc) (pid : Nat),
      pid ∈ target_pids node_id port os → alive os pid = true := by
  intro os
  induction os with
  | nil => intro pid h; simp [target_pids] at h
  | cons p rest ih =>
      intro pid h
      by_cases hp : selectedBool node_id port p = true
      · rw [target_pids, if_pos hp] at h
        simp only [selectedBool, Bool.and_eq_true] at hp
        rcases List.mem_cons.mp h with rfl | hmem
        · simp [alive]
          exact Or.inl (by simpa using hp.1.2)
        · simp [alive]
          exact Or.inr (ih pid hmem)
      · rw [target_pids, if_neg hp] at h
        simp [alive]
        exact Or.inr (ih pid h)

theorem suspend_fold_spec (node_id : String) :
    ∀ (ts : List Nat) (s : HarnessState),
      (∀ pid ∈ ts, alive s.os pid = true) →
      ((ts.foldl (suspend_one node_id) s).behave_suspended_pids
          = s.behave_suspended_pids ++ ts) ∧
      ((ts.foldl (suspend_one node_id) s).os
          = ts.foldl (fun o pid => os_kill pid Sig.sigstop o) s.os) ∧
      ((ts.foldl (suspend_one node_id) s).test_suspended_pids
          = s.test_suspended_pids) := by
  intro ts
  induction ts with
  | nil => intro s h; simp
  | cons pid ts' ih =>
      intro s h
      have hal : alive s.os pid = true := h pid (List.mem_cons_self pid ts')
      have hstep : suspend_one node_id s pid
          = { s with
                os := os_kill pid Sig.sigstop s.os,
                suspended_node := some node_id,
                suspended_pid := some pid,
                behave_suspended_pids := s.behave_suspended_pids ++ [pid] } := by
        simp [suspend_one, hal]
      have hrest : ∀ q ∈ ts',
          alive (os_kill pid Sig.sigstop s.os) q = true := by
        intro q hq
        rw [alive_os_kill_sigstop]
        exact h q (List.mem_cons_of_mem pid hq)
      obtain ⟨hb, ho, ht⟩ := ih ({ s with
          os := os_kill pid Sig.sigstop s.os,
          suspended_node := some node_id,
          suspended_pid := some pid,
          behave_suspended_pids := s.behave_suspended_pids ++ [pid] }) hrest
      refine ⟨?_, ?_, ?_⟩
      · rw [List.foldl_cons, hstep, hb]
        simp
      · rw [List.foldl_cons, hstep, ho]
        rw [List.foldl_cons]
      · rw [List.foldl_cons, hstep, ht]

/-- C9: for a target node id whose configured port is known and nonzero, the
    suspend step selects exactly the scannable, still existing processes
    whose first command line word contains the node binary path and whose
    environment carried NODE_ID equals the target id, falling back to a port
    match in the command line only when environment inspection is denied
    (selectedBool agrees with the spec level selection predicate, and the
    collecting loop equals filtering the process table by it); every selected
    pid receives precisely a stop signal, never a terminate, and is appended
    to the suspend recorded pid list; and when zero processes match the step
    completes without error, leaving the state unchanged. -/
theorem C9_suspend_selection (node_id : String) (port : Nat)
    (s : HarnessState) (hport : port ≠ 0) :
    (∀ p : Proc,
        selectedBool node_id port p = true ↔ SelectedBySpec node_id port p) ∧
    target_pids node_id port s.os
        = (s.os.filter (selectedBool node_id port)).map Proc.pid ∧
    (step_node_stops_responding node_id (some port) s).behave_suspended_pids
        = s.behave_suspended_pids ++ target_pids node_id port s.os ∧
    (step_node_stops_responding node_id (some port) s).os
        = (target_pids node_id port s.os).foldl
            (fun o pid => os_kill pid Sig.sigstop o) s.os ∧
    (step_node_stops_responding node_id (some port) s).test_suspended_pids
        = s.test_suspended_pids ∧
    (target_pids node_id port s.os = [] →
        step_node_stops_responding node_id (some port) s = s) := by
  have hstep : step_node_stops_responding node_id (some port) s
      = (target_pids node_id port s.os).foldl (suspend_one node_id) s := by
    simp [step_node_stops_responding, hport]
  have halive : ∀ pid ∈ target_pids node_id port s.os,
      alive s.os pid = true :=
    fun pid h => target_pids_alive node_id port s.os pid h
  obtain ⟨hb, ho, ht⟩ :=
    suspend_fold_spec node_id (target_pids node_id port s.os) s halive
  refine ⟨fun p => selectedBool_iff_spec node_id port p,
    target_pids_eq_filter node_id port s.os, ?_, ?_, ?_, ?_⟩
  · rw [hstep]
    exact hb
  · rw [hstep]
    exact ho
  · rw [hstep]
    exact ht
  · intro hnil
    rw [hstep, hnil]
    rfl

/-- Concrete scenario processes: the goreman supervisor (pid 1, leading its
    own process group 1) and the node n2 process it spawned (pid 42, same
    group), as started by the goreman path of the harness. -/
def goreman_proc : Proc :=
  ⟨1, 1, ["goreman", "start"], true, none, true, PStatus.running⟩

def n2_proc : Proc :=
  ⟨42, 1, ["./bin/node"], true, some "n2", true, PStatus.running⟩

def harness0 : HarnessState :=
  ⟨[goreman_proc, n2_proc], [], [], none, none⟩

theorem C9_suspend_selection_witness :
    (8082 : Nat) ≠ 0 ∧
    ((∀ p : Proc,
        selectedBool "n2" 8082 p = true ↔ SelectedBySpec "n2" 8082 p) ∧
     target_pids "n2" 8082 harness0.os
         = (harness0.os.filter (selectedBool "n2" 8082)).map Proc.pid ∧
     (step_node_stops_responding "n2" (some 8082) harness0).behave_suspended_pids
         = harness0.behave_suspended_pids ++ target_pids "n2" 8082 harness0.os ∧
     (step_node_stops_responding "n2" (some 8082) harness0).os
         = (target_pids "n2" 8082 harness0.os).foldl
             (fun o pid => os_kill pid Sig.sigstop o) harness0.os ∧
     (step_node_stops_responding "n2" (some 8082) harness0).test_suspended_pids
         = harness0.test_suspended_pids ∧
     (target_pids "n2" 8082 harness0.os = [] →
         step_node_stops_responding "n2" (some 8082) harness0 = harness0)) :=
  ⟨by decide, C9_suspend_selection "n2" 8082 harness0 (by decide)⟩

/-- C2: evaluation at the failing run.  Suspending node n2 records pid 42 in
    the suspended pid list held on the behave context, but the teardown sweep
    iterates the suspended pid list held on the TestContext dataclass, which
    the suspend step never populates: after the full teardown the recorded
    list still contains pid 42, it was never cleared, and the suspended
    process is still alive in stopped state (the group terminate signal stays
    pending on a stopped process), so the sweep neither force kills nor
    clears what suspend recorded. -/
theorem C2_sweep_misses_recorded_pids :
    (step_node_stops_responding "n2" (some 8082) harness0).behave_suspended_pids
        = [42] ∧
    (step_node_stops_responding "n2" (some 8082) harness0).test_suspended_pids
        = [] ∧
    (stop_all_processes ⟨some 1, [], none, [1]⟩
        (step_node_stops_responding "n2" (some 8082) harness0)).behave_suspended_pids
        = [42] ∧
    alive (stop_all_processes ⟨some 1, [], none, [1]⟩
        (step_node_stops_responding "n2" (some 8082) harness0)).os 42 = true := by
  decide

/-- C3 counterexample: after suspending node n2 (pid 42) and then resuming
    it, the continue signal is delivered (the process runs again), yet pid 42
    is still present in the suspended pid list, because step_node_recovers
    never removes anything from it; this refutes the claim that the id is
    absent from the set after resume. -/
theorem C3_counterexample_resume_keeps_pid :
    (step_node_recovers "n2"
        (step_node_stops_responding "n2" (some 8082) harness0)).behave_suspended_pids
        = [42] ∧
    ((step_node_recovers "n2"
        (step_node_stops_responding "n2" (some 8082) harness0)).os.find?
          (fun p => p.pid == 42)).map Proc.status = some PStatus.running := by
  decide

/-- C3 (amended): when a suspension for the named node is recorded, resume
    sends a continue signal to the recorded pid, so its process runs again,
    but the pid is NOT removed from the suspended pid list and the recorded
    suspension bookkeeping is kept; resuming when no matching suspension is
    recorded is a no-op, not an error. -/
theorem C3_resume_amended (s : HarnessState) (node_id : String) :
    (∀ pid : Nat, s.suspended_pid = some pid →
        s.suspended_node = some node_id →
        (step_node_recovers node_id s).os
            = (if alive s.os pid = true then os_kill pid Sig.sigcont s.os
               else s.os) ∧
        (step_node_recovers node_id s).behave_suspended_pids
            = s.behave_suspended_pids ∧
        (step_node_recovers node_id s).test_suspended_pids
            = s.test_suspended_pids ∧
        (step_node_recovers node_id s).suspended_pid = s.suspended_pid) ∧
    ((∀ pid : Nat, s.suspended_pid = some pid →
        s.suspended_node ≠ some node_id) →
      step_node_recovers node_id s = s) := by
  constructor
  · intro pid hpid hnode
    by_cases hal : alive s.os pid = true <;>
      simp [step_node_recovers, hpid, hnode, hal]
  · intro hno
    rcases hp : s.suspended_pid with _ | pid
    · simp [step_node_recovers, hp]
    · rcases hn : s.suspended_node with _ | n
      · simp [step_node_recovers, hp, hn]
      · have hne : ¬n = node_id := by
          intro h
          exact (hno pid hp) (by rw [hn, h])
        simp [step_node_recovers, hp, hn, hne]

theorem C3_resume_amended_witness :
    ((step_node_stops_responding "n2" (some 8082) harness0).suspended_pid
        = some 42 ∧
     (step_node_stops_responding "n2" (some 8082) harness0).suspended_node
        = some "n2") ∧
    (step_node_recovers "n2"
        (step_node_stops_responding "n2" (some 8082) harness0)).behave_suspended_pids
      = (step_node_stops_responding "n2" (some 8082) harness0).behave_suspended_pids :=
  ⟨⟨by decide, by decide⟩,
   ((C3_resume_amended (step_node_stops_responding "n2" (some 8082) harness0)
       "n2").1 42 (by decide) (by decide)).2.1⟩

/-- C8: evaluation at the failing input and at neighbouring healthy inputs.
    In the goreman path, teardown of a cluster whose node process pid 42 was
    left suspended leaves that process alive in stopped state, because the
    group terminate stays pending on a stopped process and the kill sweep
    reads the never populated TestContext list; the same teardown without
    the suspension kills every process, and the direct path per record
    stopper (graceful terminate, then forced kill on timeout) kills even the
    suspended process, so the violation is exactly the suspended leftover of
    the goreman path. -/
theorem C8_stop_all_leaves_suspended_alive :
    alive (stop_all_processes ⟨some 1, [], none, [1]⟩
        (step_node_stops_responding "n2" (some 8082) harness0)).os 42 = true ∧
    alive (stop_all_processes ⟨some 1, [], none, [1]⟩ harness0).os 42 = false ∧
    alive (stop_all_processes ⟨some 1, [], none, [1]⟩ harness0).os 1 = false ∧
    alive (stop_all_processes ⟨some 1, [], none, [1]⟩
        (step_node_stops_responding "n2" (some 8082) harness0)).os 1 = false ∧
    alive (stop_all_processes ⟨none, [42], none, []⟩
        (step_node_stops_responding "n2" (some 8082) harness0)).os 42 = false := by
  decide
